import Mathlib

/-!
Verification development for the safe-cex Kraken exchange adapter.

The definitions below are a shallow embedding of the TypeScript sources:

* `src/src/exchanges/kraken/kraken.ws-public.ts` — the public websocket
  (`KrakenPublicWebsocket`): order-book synchronisation, topic registry,
  subscribe/unsubscribe wire commands; embedded as the state type
  `PubWsState` with one Lean function per method.
* `src/src/exchanges/kraken/kraken.api.ts` — the REST request signer's
  nonce source (`Date.now() * 1000`), embedded as `krakenNonce`.
* `src/unnamed/part_001` (`kraken.ws-private.ts`) — the private websocket's
  heartbeat (`ping` / `handlePongEvent`), embedded as `PrivWsState` with a
  step function over heartbeat events.

JavaScript numbers that hold prices and quantities are modelled as `Int`;
callback function objects are identified by `Nat` tokens; `ws.send` is
modelled by appending the encoded payload to a `sent` log.  The helper
functions `sortOrderBook`, `calcOrderBookTotal` and `jsonParse` are imported
by the sources from `src/utils/*` which is not part of the source snapshot;
they are modelled from the specification and marked as such in their doc
comments.
-/

/-- One price level of an order-book side, as built by
`handleOrderBookEvent`: `{ price, amount, total }`. -/
structure BookEntry where
  price : Int
  amount : Int
  total : Int
deriving Repr, DecidableEq

/-- An order book `{ bids, asks }` as stored in `this.orderBooks`. -/
structure OrderBook where
  bids : List BookEntry
  asks : List BookEntry
deriving Repr, DecidableEq

/-- One `{ price, qty }` level of a `book_snapshot` event. -/
structure SnapshotLevel where
  price : Int
  qty : Int
deriving Repr, DecidableEq

/-- Comparison used to model sorting of the bid side (descending price). -/
def bidGE (a b : BookEntry) : Prop := b.price ≤ a.price

/-- Comparison used to model sorting of the ask side (ascending price). -/
def askLE (a b : BookEntry) : Prop := a.price ≤ b.price

instance : DecidableRel bidGE := fun a b => Int.decLe b.price a.price

instance : DecidableRel askLE := fun a b => Int.decLe a.price b.price

instance : IsTotal BookEntry bidGE := ⟨fun a b => le_total b.price a.price⟩

instance : IsTotal BookEntry askLE := ⟨fun a b => le_total a.price b.price⟩

instance : IsTrans BookEntry bidGE := ⟨fun _ _ _ hab hbc => le_trans hbc hab⟩

instance : IsTrans BookEntry askLE := ⟨fun _ _ _ hab hbc => le_trans hab hbc⟩

/-- Modelled from the spec: `sortOrderBook` (imported from
`src/utils/orderbook`, absent from the source snapshot) re-sorts the book,
"bids descending by price, asks ascending by price". -/
def sortOrderBook (ob : OrderBook) : OrderBook :=
  { bids := List.insertionSort bidGE ob.bids,
    asks := List.insertionSort askLE ob.asks }

/-- Running-sum pass over one side: each entry's `total` becomes the
accumulator plus its own `amount`. -/
def calcSideTotal : Int → List BookEntry → List BookEntry
  | _, [] => []
  | acc, e :: rest =>
      { e with total := acc + e.amount } :: calcSideTotal (acc + e.amount) rest

/-- Modelled from the spec: `calcOrderBookTotal` (imported from
`src/utils/orderbook`, absent from the source snapshot) recomputes each
side's `total` as the running sum of `amount` from the best price outward. -/
def calcOrderBookTotal (ob : OrderBook) : OrderBook :=
  { bids := calcSideTotal 0 ob.bids, asks := calcSideTotal 0 ob.asks }

/-- The `book` delta branch of `handleOrderBookEvent` acting on one side:
`findIndex` on the price, then splice / overwrite amount / push.  Note that
a `qty = 0` delta whose price is NOT present falls through to the push
branch, exactly as in the source (`qty === 0 && index !== -1` guards only
the splice). -/
def applyDelta : List BookEntry → Int → Int → List BookEntry
  | [], price, qty => [⟨price, qty, 0⟩]
  | o :: rest, price, qty =>
      if o.price = price then
        (if qty = 0 then rest else { o with amount := qty } :: rest)
      else o :: applyDelta rest price qty

/-- Subscribe / unsubscribe wire command, the JSON payloads passed to
`ws.send`. -/
inductive WireMsg
  | subscribe (feed : String) (product_ids : List String)
  | unsubscribe (feed : String) (product_ids : List String)
deriving Repr, DecidableEq

/-- Lookup in a JavaScript-object-like association list
(`this.orderBookCallbacks[k]`, `this.orderBooks[k]`). -/
def getKey {α : Type} : String → List (String × α) → Option α
  | _, [] => none
  | k, p :: rest => if p.1 = k then some p.2 else getKey k rest

/-- Assignment `obj[k] = v` on an association list: overwrite the existing
binding or append a fresh one. -/
def setKey {α : Type} : String → α → List (String × α) → List (String × α)
  | k, v, [] => [(k, v)]
  | k, v, p :: rest => if p.1 = k then (k, v) :: rest else p :: setKey k v rest

/-- `delete obj[k]` on an association list. -/
def delKey {α : Type} : String → List (String × α) → List (String × α)
  | _, [] => []
  | k, p :: rest => if p.1 = k then delKey k rest else p :: delKey k rest

/-- State of `KrakenPublicWebsocket`: the `topics` registry (its two keys
`ticker` and `book` kept as separate lists of product ids), the order-book
callback and book maps, the store fields the class reads
(`store.loaded.markets`, `store.markets` as (id, symbol) pairs), the
transport flags, and the log of payloads passed to `ws.send`. -/
structure PubWsState where
  disposed : Bool
  marketsLoaded : Bool
  markets : List (String × String)
  topicsTicker : List String
  topicsBook : List String
  orderBookCallbacks : List (String × Nat)
  orderBooks : List (String × OrderBook)
  connected : Bool
  sent : List WireMsg
deriving Repr, DecidableEq

/-- The wire payloads produced by one call to `subscribe()`: one subscribe
command per feed present in `topics`, carrying that feed's product ids,
skipping feeds with no product ids. -/
def subscribeMsgs (st : PubWsState) : List WireMsg :=
  (if st.topicsTicker = [] then [] else [WireMsg.subscribe "ticker" st.topicsTicker]) ++
  (if st.topicsBook = [] then [] else [WireMsg.subscribe "book" st.topicsBook])

/-- `subscribe()` of `KrakenPublicWebsocket`: sends the commands built from
the current `topics` registry. -/
def subscribe (st : PubWsState) : PubWsState :=
  { st with sent := st.sent ++ subscribeMsgs st }

/-- `connectAndSubscribe()`: no-op when disposed; otherwise opens a fresh
transport (not yet connected) and RESETS `topics` to all-market ticker
topics and an empty `book` list. -/
def connectAndSubscribe (st : PubWsState) : PubWsState :=
  if st.disposed then st
  else { st with connected := false,
                 topicsTicker := st.markets.map Prod.fst,
                 topicsBook := [] }

/-- `onOpen`: the transport reports open; no-op when disposed, otherwise
`subscribe()` runs. -/
def onOpen (st : PubWsState) : PubWsState :=
  if st.disposed then st else subscribe { st with connected := true }

/-- A decoded order-book event: `book_snapshot` or `book` feed. -/
inductive BookEvent
  | snapshot (product_id : String) (bids : List SnapshotLevel) (asks : List SnapshotLevel)
  | delta (product_id : String) (price : Int) (qty : Int) (side : String)
deriving Repr, DecidableEq

/-- The `data.product_id` field of an order-book event. -/
def eventPid : BookEvent → String
  | .snapshot pid _ _ => pid
  | .delta pid _ _ _ => pid

/-- The `book_snapshot` branch of `handleOrderBookEvent`: both sides are
fully replaced by the event's levels, each entry built with `total: 0`. -/
def snapBook (bs : List SnapshotLevel) (ask_levels : List SnapshotLevel) : OrderBook :=
  ⟨bs.map (fun l => ⟨l.price, l.qty, 0⟩),
   ask_levels.map (fun l => ⟨l.price, l.qty, 0⟩)⟩

/-- The `book` branch of `handleOrderBookEvent`: apply the single-level
delta to the side selected by `side === 'buy'` (anything else selects the
asks, as in the source). -/
def deltaBook (ob : OrderBook) (price qty : Int) (side : String) : OrderBook :=
  if side == "buy" then
    { ob with bids := applyDelta ob.bids price qty }
  else
    { ob with asks := applyDelta ob.asks price qty }

/-- The tail of `handleOrderBookEvent`: `sortOrderBook` then
`calcOrderBookTotal`, run after every applied event. -/
def postProcess (ob : OrderBook) : OrderBook :=
  calcOrderBookTotal (sortOrderBook ob)

/-- The book produced and stored by `handleOrderBookEvent` for an event:
the stored book for the product id (or a fresh empty one) transformed by
the event's branch, then post-processed. -/
def bookAfter (st : PubWsState) (e : BookEvent) : OrderBook :=
  postProcess
    (match e with
     | .snapshot _ bs ask_levels => snapBook bs ask_levels
     | .delta _ price qty side =>
         deltaBook ((getKey (eventPid e) st.orderBooks).getD ⟨[], []⟩) price qty side)

/-- `handleOrderBookEvent`: returns immediately when no callback is
registered for the product id; otherwise takes the stored book (or a fresh
empty one), applies the snapshot replacement or the single-level delta,
re-sorts, recomputes totals, stores the book and invokes the callback with
it.  The second component is the invoked callback token together with the
book it receives (`none` when the event was ignored). -/
def handleOrderBookEvent (st : PubWsState) (e : BookEvent) :
    PubWsState × Option (Nat × OrderBook) :=
  match getKey (eventPid e) st.orderBookCallbacks with
  | none => (st, none)
  | some cb =>
    ({ st with orderBooks := setKey (eventPid e) (bookAfter st e) st.orderBooks },
      some (cb, bookAfter st e))

/-- Left fold of `handleOrderBookEvent` over a list of events (the states
reached by successive message dispatches). -/
def applyBookEvents (st : PubWsState) (es : List BookEvent) : PubWsState :=
  es.foldl (fun s e => (handleOrderBookEvent s e).1) st

/-- `listenOrderBook(symbol, callback)` in the markets-loaded case: look up
the market by symbol, register the `book` topic if new (sending
`subscribe()` when connected), and store the callback.  Returns the product
id captured by the unsubscribe closure (`none` when markets were not loaded
or the symbol is unknown, in which case the returned closure sends
nothing). -/
def listenOrderBook (st : PubWsState) (symbol : String) (cb : Nat) :
    PubWsState × Option String :=
  if st.marketsLoaded = false then (st, none)
  else
    match st.markets.find? (fun m => m.2 == symbol) with
    | none => (st, none)
    | some mkt =>
      let st1 :=
        if st.topicsBook.contains mkt.1 then st
        else
          let stp := { st with topicsBook := st.topicsBook ++ [mkt.1] }
          if stp.connected then subscribe stp else stp
      ({ st1 with orderBookCallbacks := setKey mkt.1 cb st1.orderBookCallbacks },
        some mkt.1)

/-- The unsubscribe closure returned by `listenOrderBook`: filter the topic
out of `topics.book`, delete the callback and the stored book, and — only
when connected — send one unsubscribe command for the product id.  The send
is NOT guarded by the topic still being present. -/
def unsubscribeBook (st : PubWsState) (pid : String) : PubWsState :=
  let st1 := { st with
    topicsBook := st.topicsBook.filter (fun p => p != pid),
    orderBookCallbacks := delKey pid st.orderBookCallbacks,
    orderBooks := delKey pid st.orderBooks }
  if st1.connected then
    { st1 with sent := st1.sent ++ [WireMsg.unsubscribe "book" [pid]] }
  else st1

/-- `n` successive `listenOrderBook` registrations for the same symbol. -/
def acquireN : PubWsState → String → Nat → PubWsState
  | st, _, 0 => st
  | st, sym, n + 1 => acquireN (listenOrderBook st sym 0).1 sym n

/-- `n` successive invocations of the unsubscribe closures (each closure
captured the same product id). -/
def releaseN : PubWsState → String → Nat → PubWsState
  | st, _, 0 => st
  | st, pid, n + 1 => releaseN (unsubscribeBook st pid) pid n

/-- Number of subscribe commands for the `book` feed that name the given
product id. -/
def countBookSubscribes (pid : String) (msgs : List WireMsg) : Nat :=
  msgs.countP (fun m =>
    match m with
    | WireMsg.subscribe f pids => f == "book" && pids.contains pid
    | _ => false)

/-- Number of unsubscribe commands for the `book` feed that name the given
product id. -/
def countBookUnsubscribes (pid : String) (msgs : List WireMsg) : Nat :=
  msgs.countP (fun m =>
    match m with
    | WireMsg.unsubscribe f pids => f == "book" && pids.contains pid
    | _ => false)

/-- Price projection of one side. -/
def sidePrices (l : List BookEntry) : List Int := l.map BookEntry.price

/-- Strictly descending prices (bid side of a well-formed book). -/
def strictDesc (l : List BookEntry) : Prop :=
  (l.map BookEntry.price).Pairwise (fun a b => b < a)

/-- Strictly ascending prices (ask side of a well-formed book). -/
def strictAsc (l : List BookEntry) : Prop :=
  (l.map BookEntry.price).Pairwise (fun a b => a < b)

/-- At most one entry per price on a side. -/
def uniquePrices (l : List BookEntry) : Prop := (l.map BookEntry.price).Nodup

/-- The `total` of the entry at index `i` is the sum of the amounts of the
entries at indices `0..i`. -/
def totalsCumulative (l : List BookEntry) : Prop :=
  ∀ i (hi : i < l.length),
    (l.get ⟨i, hi⟩).total = ((l.take (i + 1)).map BookEntry.amount).sum

/-- The full order-book invariant claimed by the specification. -/
def goodBook (ob : OrderBook) : Prop :=
  strictDesc ob.bids ∧ strictAsc ob.asks ∧
  uniquePrices ob.bids ∧ uniquePrices ob.asks ∧
  totalsCumulative ob.bids ∧ totalsCumulative ob.asks

/-! ### Raw-message model (exception semantics of `onMessage`)

`handleOrderBookEvent` receives whatever object `jsonParse` produced; its
fields may be absent (`undefined`).  The raw model mirrors the JavaScript
step by step: field reads yield `Option` values, and a thrown `TypeError`
(calling `.map` on `undefined`) aborts the handler at the corresponding
program point, leaving every mutation already performed in place. -/

/-- A book entry as the raw handler can build it: `price` / `amount` may be
the JavaScript value `undefined` (modelled `none`). -/
structure JSBookEntry where
  price : Option Int
  amount : Option Int
  total : Int
deriving Repr, DecidableEq

/-- An order book over raw entries. -/
structure JSOrderBook where
  bids : List JSBookEntry
  asks : List JSBookEntry
deriving Repr, DecidableEq

/-- The fields of a parsed message that the order-book path reads; each is
`none` when absent from the JSON object. -/
structure RawJson where
  feed : Option String
  product_id : Option String
  bids : Option (List SnapshotLevel)
  asks : Option (List SnapshotLevel)
  price : Option Int
  qty : Option Int
  side : Option String
deriving Repr, DecidableEq

/-- An inbound transport payload: either unparseable bytes or a JSON
object. -/
inductive RawMsg
  | garbage
  | parsed (j : RawJson)
deriving Repr, DecidableEq

/-- Modelled from the spec: `jsonParse` (imported from
`src/utils/json-parse`, absent from the source snapshot) returns the decoded
object, or null when the payload cannot be parsed as JSON. -/
def jsonParse : RawMsg → Option RawJson
  | .garbage => none
  | .parsed j => some j

/-- The delta branch over raw entries; `===` comparisons involving
`undefined` behave exactly as the `Option Int` equality used here
(`undefined === undefined` is true, `undefined === n` is false). -/
def applyDeltaJS : List JSBookEntry → Option Int → Option Int → List JSBookEntry
  | [], price, qty => [⟨price, qty, 0⟩]
  | o :: rest, price, qty =>
      if o.price = price then
        (if qty = some 0 then rest else { o with amount := qty } :: rest)
      else o :: applyDeltaJS rest price qty

/-- Modelled from the spec: the sorting comparison of `sortOrderBook` over
raw entries.  The spec assumes numeric prices; an absent price is ordered as
price 0. -/
def jsPrice (e : JSBookEntry) : Int := e.price.getD 0

/-- Bid-side comparison (descending) over raw entries. -/
def bidGEJS (a b : JSBookEntry) : Prop := jsPrice b ≤ jsPrice a

/-- Ask-side comparison (ascending) over raw entries. -/
def askLEJS (a b : JSBookEntry) : Prop := jsPrice a ≤ jsPrice b

instance : DecidableRel bidGEJS := fun a b => Int.decLe (jsPrice b) (jsPrice a)

instance : DecidableRel askLEJS := fun a b => Int.decLe (jsPrice a) (jsPrice b)

/-- Modelled from the spec: `sortOrderBook` over raw entries. -/
def sortOrderBookJS (ob : JSOrderBook) : JSOrderBook :=
  { bids := List.insertionSort bidGEJS ob.bids,
    asks := List.insertionSort askLEJS ob.asks }

/-- Modelled from the spec: the running-sum pass over raw entries; an
absent amount contributes 0. -/
def calcSideTotalJS : Int → List JSBookEntry → List JSBookEntry
  | _, [] => []
  | acc, e :: rest =>
      { e with total := acc + e.amount.getD 0 } ::
        calcSideTotalJS (acc + e.amount.getD 0) rest

/-- Modelled from the spec: `calcOrderBookTotal` over raw entries. -/
def calcOrderBookTotalJS (ob : JSOrderBook) : JSOrderBook :=
  { bids := calcSideTotalJS 0 ob.bids, asks := calcSideTotalJS 0 ob.asks }

/-- `handleOrderBookEvent` on a raw parsed object.  Result components: the
order-book map after the call, whether a `TypeError` escaped the handler,
and the callback token invoked (`none` when no callback ran).  The book is
created and stored before the feed branches run, exactly as in the source;
a throw in the snapshot branch leaves the mutations already performed
(`orderBook.bids = bids.map(...)` precedes the read of `asks`). -/
def handleOrderBookEventRaw (cbs : List (String × Nat))
    (books : List (String × JSOrderBook)) (j : RawJson) :
    List (String × JSOrderBook) × Bool × Option Nat :=
  match j.product_id with
  | none => (books, false, none)
  | some pid =>
    match getKey pid cbs with
    | none => (books, false, none)
    | some cb =>
      let ob0 := (getKey pid books).getD ⟨[], []⟩
      let storedBooks :=
        match getKey pid books with
        | some _ => books
        | none => setKey pid (⟨[], []⟩ : JSOrderBook) books
      if j.feed = some "book_snapshot" then
        match j.bids with
        | none => (storedBooks, true, none)
        | some bs =>
          let obA := { ob0 with
            bids := bs.map (fun l => (⟨some l.price, some l.qty, 0⟩ : JSBookEntry)) }
          match j.asks with
          | none => (setKey pid obA storedBooks, true, none)
          | some ask_levels =>
            let obB := { obA with
              asks := ask_levels.map (fun l => (⟨some l.price, some l.qty, 0⟩ : JSBookEntry)) }
            let obC := calcOrderBookTotalJS (sortOrderBookJS obB)
            (setKey pid obC storedBooks, false, some cb)
      else if j.feed = some "book" then
        let obB :=
          if j.side = some "buy" then
            { ob0 with bids := applyDeltaJS ob0.bids j.price j.qty }
          else
            { ob0 with asks := applyDeltaJS ob0.asks j.price j.qty }
        let obC := calcOrderBookTotalJS (sortOrderBookJS obB)
        (setKey pid obC storedBooks, false, some cb)
      else
        let obC := calcOrderBookTotalJS (sortOrderBookJS ob0)
        (setKey pid obC storedBooks, false, some cb)

/-- `onMessage` of the public websocket, restricted to its effect on the
order-book map: drop everything when disposed; drop unparseable payloads
(`jsonParse` returned null); dispatch `book_snapshot` / `book` to the raw
order-book handler; every other feed (including `ticker`, whose handler
touches only the ticker store) leaves the order-book map untouched and
throws nothing. -/
def onMessageRaw (disposed : Bool) (cbs : List (String × Nat))
    (books : List (String × JSOrderBook)) (msg : RawMsg) :
    List (String × JSOrderBook) × Bool × Option Nat :=
  if disposed then (books, false, none)
  else
    match jsonParse msg with
    | none => (books, false, none)
    | some j =>
      match j.feed with
      | none => (books, false, none)
      | some f =>
        if f == "book_snapshot" || f == "book" then
          handleOrderBookEventRaw cbs books j
        else (books, false, none)

/-! ### Private-websocket heartbeat (`KrakenPrivateWebSocket`) -/

/-- Heartbeat-relevant state of `KrakenPrivateWebSocket`: `pingAt` and the
`pingTimeoutId` slot of the base class, the latency the pong handler writes
to the store, a count of pings passed to `ws.send`, and counters for the
session transitions to Closed and back to Connecting performed by the
transport-close path. -/
structure PrivWsState where
  disposed : Bool
  pingAt : Option Nat
  pingTimeoutId : Option Nat
  latency : Option Nat
  sentPings : Nat
  closedCount : Nat
  reconnects : Nat
  nextTimerId : Nat
deriving Repr, DecidableEq

/-- `ping()`: record `performance.now()` and send a ping frame; schedules
nothing. -/
def privPing (st : PrivWsState) (now : Nat) : PrivWsState :=
  if st.disposed then st
  else { st with pingAt := some now, sentPings := st.sentPings + 1 }

/-- `handlePongEvent()`: publish half the round-trip as latency, clear the
pending next-ping timer if any, and schedule a fresh one (the 10 s timer
that will call `ping()` again). -/
def handlePongEvent (st : PrivWsState) (now : Nat) : PrivWsState :=
  { st with
    latency := some ((now - st.pingAt.getD 0) / 2),
    pingTimeoutId := some st.nextTimerId,
    nextTimerId := st.nextTimerId + 1 }

/-- Events driving the private session's heartbeat: transport open (the
source's `onOpen` requests a challenge and calls `ping()`), an inbound
pong-equivalent message, the firing of the scheduled next-ping timer, and a
transport close (the base class's reconnect path). -/
inductive PrivEvent
  | wsOpen (t : Nat)
  | pongMsg (t : Nat)
  | nextPingTimer (t : Nat)
  | transportClose
deriving Repr, DecidableEq

/-- One step of the private session: the only transition that ever reaches
Closed / Connecting is an actual transport close; no timer in the source
watches for a missing pong. -/
def privStep (st : PrivWsState) : PrivEvent → PrivWsState
  | .wsOpen t => if st.disposed then st else privPing st t
  | .pongMsg t => handlePongEvent st t
  | .nextPingTimer t =>
      match st.pingTimeoutId with
      | some _ => privPing { st with pingTimeoutId := none } t
      | none => st
  | .transportClose =>
      if st.disposed then st
      else { st with closedCount := st.closedCount + 1,
                     reconnects := st.reconnects + 1 }

/-- Run the private session over a list of events. -/
def privRun (st : PrivWsState) (es : List PrivEvent) : PrivWsState :=
  es.foldl privStep st

/-- A freshly constructed private session. -/
def privInit : PrivWsState :=
  { disposed := false, pingAt := none, pingTimeoutId := none, latency := none,
    sentPings := 0, closedCount := 0, reconnects := 0, nextTimerId := 0 }

/-- True when the event list contains no pong-equivalent message and no
transport close. -/
def heartbeatSilent (es : List PrivEvent) : Bool :=
  es.all (fun e =>
    match e with
    | PrivEvent.pongMsg _ => false
    | PrivEvent.transportClose => false
    | _ => true)

/-! ### `listenOrderBook` retry timer (markets not yet loaded) -/

/-- State of the `listenOrderBook` retry chain started while
`store.loaded.markets` is false.  `pending` is the id of the chain's
currently scheduled 100 ms timer (each retry invocation schedules a new one
and discards the closure returned by the recursive call); `capturedId` is
the content of the `timeoutId` variable captured by the unsubscribe closure
returned to the ORIGINAL caller (set once, nulled by the closure). -/
structure RetryState where
  marketsLoaded : Bool
  pending : Option Nat
  capturedId : Option Nat
  registered : Bool
  nextId : Nat
deriving Repr, DecidableEq

/-- Events of the retry chain: the pending timer fires (re-running
`listenOrderBook`, which either registers the subscription or schedules a
fresh timer), the original unsubscribe closure is invoked
(`clearTimeout` of the captured id — a no-op when that timer already
fired), and the markets finish loading. -/
inductive RetryEvent
  | fire
  | unsubscribe
  | loadMarkets
deriving Repr, DecidableEq

/-- One step of the retry chain. -/
def retryStep (st : RetryState) : RetryEvent → RetryState
  | .fire =>
      match st.pending with
      | none => st
      | some _ =>
          if st.marketsLoaded then
            { st with pending := none, registered := true }
          else
            { st with pending := some st.nextId, nextId := st.nextId + 1 }
  | .unsubscribe =>
      match st.capturedId with
      | none => st
      | some i =>
          { st with capturedId := none,
                    pending := if st.pending = some i then none else st.pending }
  | .loadMarkets => { st with marketsLoaded := true }

/-- Run the retry chain over a list of events. -/
def runRetry (es : List RetryEvent) : RetryState :=
  es.foldl retryStep
    { marketsLoaded := false, pending := some 0, capturedId := some 0,
      registered := false, nextId := 1 }

/-! ### Request-signer nonce (`kraken.api.ts`) -/

/-- The nonce attached by the request interceptor:
`(Date.now() * 1000).toString()`, a function of the millisecond clock
reading only. -/
def krakenNonce (nowMs : Nat) : Nat := nowMs * 1000

/-- The nonces issued to a sequence of requests whose `Date.now()` readings
are the given list. -/
def nonceSequence (clock : List Nat) : List Nat := clock.map krakenNonce

/-! ### Concrete states used by witnesses and counterexamples -/

/-- A connected public session with one loaded market and a registered
order-book callback for product id `P`. -/
def c1WitnessState : PubWsState :=
  { disposed := false, marketsLoaded := true, markets := [("P", "P")],
    topicsTicker := ["P"], topicsBook := ["P"],
    orderBookCallbacks := [("P", 0)], orderBooks := [],
    connected := true, sent := [] }

/-- A connected public session with a registered callback for `P` and an
empty stored book for `P`. -/
def c2State : PubWsState :=
  { disposed := false, marketsLoaded := true, markets := [("P", "P")],
    topicsTicker := [], topicsBook := ["P"],
    orderBookCallbacks := [("P", 0)], orderBooks := [("P", ⟨[], []⟩)],
    connected := true, sent := [] }

/-- A connected public session with one market `PF_X` (symbol `X`) and no
book subscriptions yet. -/
def c3State : PubWsState :=
  { disposed := false, marketsLoaded := true, markets := [("PF_X", "X")],
    topicsTicker := ["PF_X"], topicsBook := [],
    orderBookCallbacks := [], orderBooks := [],
    connected := true, sent := [] }

/-- A public session just after a forced transport close: the `book` topic
and its callback are still registered, the transport is down. -/
def c4State : PubWsState :=
  { disposed := false, marketsLoaded := true, markets := [("PF_X", "X")],
    topicsTicker := ["PF_X"], topicsBook := ["PF_X"],
    orderBookCallbacks := [("PF_X", 5)], orderBooks := [],
    connected := false, sent := [] }

/-- A parseable `book_snapshot` message whose `asks` field is absent: the
shape the raw handler throws on after replacing the bids. -/
def c8Msg : RawMsg :=
  RawMsg.parsed
    { feed := some "book_snapshot", product_id := some "P",
      bids := some [⟨100, 2⟩], asks := none,
      price := none, qty := none, side := none }

/-- A stored order-book map holding a well-formed book for `P`. -/
def c8Books : List (String × JSOrderBook) :=
  [("P", ⟨[⟨some 99, some 5, 5⟩], [⟨some 101, some 1, 1⟩]⟩)]

/-! ## Helper lemmas -/

theorem pairwise_combine {α : Type} {R S T : α → α → Prop}
    (h : ∀ a b, R a b → S a b → T a b) :
    ∀ {l : List α}, l.Pairwise R → l.Pairwise S → l.Pairwise T := by
  intro l hR hS
  induction l with
  | nil => exact List.Pairwise.nil
  | cons a t ih =>
    rw [List.pairwise_cons] at hR hS
    exact List.Pairwise.cons (fun b hb => h a b (hR.1 b hb) (hS.1 b hb)) (ih hR.2 hS.2)

theorem sortBids_strict {l : List BookEntry} (h : uniquePrices l) :
    strictDesc (List.insertionSort bidGE l) ∧
      uniquePrices (List.insertionSort bidGE l) := by
  have hperm : List.Perm (List.insertionSort bidGE l) l := List.perm_insertionSort bidGE l
  have hnd : uniquePrices (List.insertionSort bidGE l) :=
    ((hperm.map BookEntry.price).nodup_iff).mpr h
  refine ⟨?_, hnd⟩
  have hsorted : (List.insertionSort bidGE l).Pairwise bidGE :=
    List.sorted_insertionSort bidGE l
  have hne : (List.insertionSort bidGE l).Pairwise (fun a b => a.price ≠ b.price) :=
    List.pairwise_map.mp hnd
  exact List.pairwise_map.mpr
    (pairwise_combine (fun a b hge hne2 => lt_of_le_of_ne hge (Ne.symm hne2)) hsorted hne)

theorem sortAsks_strict {l : List BookEntry} (h : uniquePrices l) :
    strictAsc (List.insertionSort askLE l) ∧
      uniquePrices (List.insertionSort askLE l) := by
  have hperm : List.Perm (List.insertionSort askLE l) l := List.perm_insertionSort askLE l
  have hnd : uniquePrices (List.insertionSort askLE l) :=
    ((hperm.map BookEntry.price).nodup_iff).mpr h
  refine ⟨?_, hnd⟩
  have hsorted : (List.insertionSort askLE l).Pairwise askLE :=
    List.sorted_insertionSort askLE l
  have hne : (List.insertionSort askLE l).Pairwise (fun a b => a.price ≠ b.price) :=
    List.pairwise_map.mp hnd
  exact List.pairwise_map.mpr
    (pairwise_combine (fun a b hle hne2 => lt_of_le_of_ne hle hne2) hsorted hne)

theorem calcSideTotal_map_price (acc : Int) (l : List BookEntry) :
    (calcSideTotal acc l).map BookEntry.price = l.map BookEntry.price := by
  induction l generalizing acc with
  | nil => rfl
  | cons e rest ih => simp [calcSideTotal, ih]

theorem calcSideTotal_get_total :
    ∀ (l : List BookEntry) (acc : Int) (i : Nat)
      (hi : i < (calcSideTotal acc l).length),
      ((calcSideTotal acc l).get ⟨i, hi⟩).total =
        acc + (((calcSideTotal acc l).take (i + 1)).map BookEntry.amount).sum := by
  intro l
  induction l with
  | nil =>
    intro acc i hi
    exact absurd hi (by simp [calcSideTotal])
  | cons e rest ih =>
    intro acc i hi
    match i with
    | 0 => simp [calcSideTotal]
    | j + 1 =>
      have hj : j < (calcSideTotal (acc + e.amount) rest).length := by
        have : j + 1 < (calcSideTotal (acc + e.amount) rest).length + 1 := by
          simpa [calcSideTotal] using hi
        omega
      have key := ih (acc + e.amount) j hj
      have hget :
          ((calcSideTotal acc (e :: rest)).get ⟨j + 1, hi⟩) =
            ((calcSideTotal (acc + e.amount) rest).get ⟨j, hj⟩) := rfl
      rw [hget, key]
      have htake :
          ((calcSideTotal acc (e :: rest)).take (j + 2)).map BookEntry.amount =
            e.amount ::
              (((calcSideTotal (acc + e.amount) rest).take (j + 1)).map BookEntry.amount) := by
        simp [calcSideTotal]
      rw [htake, List.sum_cons]
      ring

theorem goodBook_postProcess (ob : OrderBook)
    (hb : uniquePrices ob.bids) (ha : uniquePrices ob.asks) :
    goodBook (postProcess ob) := by
  obtain ⟨hbs, hbn⟩ := sortBids_strict hb
  obtain ⟨has2, han⟩ := sortAsks_strict ha
  unfold postProcess calcOrderBookTotal sortOrderBook
  refine ⟨?_, ?_, ?_, ?_, ?_, ?_⟩
  · unfold strictDesc
    rw [calcSideTotal_map_price]
    exact hbs
  · unfold strictAsc
    rw [calcSideTotal_map_price]
    exact has2
  · unfold uniquePrices
    rw [calcSideTotal_map_price]
    exact hbn
  · unfold uniquePrices
    rw [calcSideTotal_map_price]
    exact han
  · intro i hi
    simpa using calcSideTotal_get_total (List.insertionSort bidGE ob.bids) 0 i hi
  · intro i hi
    simpa using calcSideTotal_get_total (List.insertionSort askLE ob.asks) 0 i hi

theorem mem_price_applyDelta :
    ∀ (l : List BookEntry) (p q x : Int),
      x ∈ (applyDelta l p q).map BookEntry.price → x ∈ l.map BookEntry.price ∨ x = p := by
  intro l p q x
  induction l with
  | nil =>
    intro hx
    simp [applyDelta] at hx
    exact Or.inr hx
  | cons o rest ih =>
    intro hx
    by_cases hop : o.price = p
    · by_cases hq : q = 0
      · simp only [applyDelta, if_pos hop, if_pos hq] at hx
        exact Or.inl (List.mem_cons_of_mem _ hx)
      · simp only [applyDelta, if_pos hop, if_neg hq, List.map_cons, List.mem_cons] at hx
        rcases hx with hx | hx
        · exact Or.inl (by simp [hx])
        · exact Or.inl (List.mem_cons_of_mem _ hx)
    · simp only [applyDelta, if_neg hop, List.map_cons, List.mem_cons] at hx
      rcases hx with hx | hx
      · exact Or.inl (by simp [hx])
      · rcases ih hx with hin | heq
        · exact Or.inl (List.mem_cons_of_mem _ hin)
        · exact Or.inr heq

theorem uniquePrices_applyDelta :
    ∀ (l : List BookEntry) (p q : Int),
      uniquePrices l → uniquePrices (applyDelta l p q) := by
  intro l p q
  induction l with
  | nil =>
    intro _
    simp [applyDelta, uniquePrices]
  | cons o rest ih =>
    intro h
    unfold uniquePrices at h
    rw [List.map_cons, List.nodup_cons] at h
    by_cases hop : o.price = p
    · by_cases hq : q = 0
      · unfold uniquePrices
        simp only [applyDelta, if_pos hop, if_pos hq]
        exact h.2
      · unfold uniquePrices
        simp only [applyDelta, if_pos hop, if_neg hq, List.map_cons, List.nodup_cons]
        exact ⟨h.1, h.2⟩
    · unfold uniquePrices
      simp only [applyDelta, if_neg hop, List.map_cons, List.nodup_cons]
      refine ⟨?_, ih h.2⟩
      intro hmem
      rcases mem_price_applyDelta rest p q o.price hmem with hin | heq
      · exact h.1 hin
      · exact hop heq

theorem uniquePrices_deltaBook (ob : OrderBook) (p q : Int) (sd : String)
    (hb : uniquePrices ob.bids) (ha : uniquePrices ob.asks) :
    uniquePrices (deltaBook ob p q sd).bids ∧ uniquePrices (deltaBook ob p q sd).asks := by
  unfold deltaBook
  by_cases hsd : (sd == "buy") = true
  · simp only [if_pos hsd]
    exact ⟨uniquePrices_applyDelta ob.bids p q hb, ha⟩
  · simp only [if_neg hsd]
    exact ⟨hb, uniquePrices_applyDelta ob.asks p q ha⟩

theorem getKey_setKey_self {α : Type} (k : String) (v : α) :
    ∀ m : List (String × α), getKey k (setKey k v m) = some v := by
  intro m
  induction m with
  | nil => simp [setKey, getKey]
  | cons p rest ih =>
    by_cases hp : p.1 = k
    · simp [setKey, getKey, hp]
    · simp [setKey, getKey, hp, ih]

theorem mem_setKey_keys {α : Type} (k x : String) (v : α) :
    ∀ m : List (String × α),
      x ∈ (setKey k v m).map Prod.fst → x ∈ m.map Prod.fst ∨ x = k := by
  intro m
  induction m with
  | nil =>
    intro hx
    simp [setKey] at hx
    exact Or.inr hx
  | cons p rest ih =>
    intro hx
    by_cases hp : p.1 = k
    · simp only [setKey, if_pos hp, List.map_cons, List.mem_cons] at hx
      rcases hx with hx | hx
      · exact Or.inr hx
      · exact Or.inl (List.mem_cons_of_mem _ hx)
    · simp only [setKey, if_neg hp, List.map_cons, List.mem_cons] at hx
      rcases hx with hx | hx
      · exact Or.inl (by simp [hx])
      · rcases ih hx with hin | heq
        · exact Or.inl (List.mem_cons_of_mem _ hin)
        · exact Or.inr heq

theorem setKey_keys_nodup {α : Type} (k : String) (v : α) :
    ∀ m : List (String × α),
      (m.map Prod.fst).Nodup → ((setKey k v m).map Prod.fst).Nodup := by
  intro m
  induction m with
  | nil =>
    intro _
    simp [setKey]
  | cons p rest ih =>
    intro h
    rw [List.map_cons, List.nodup_cons] at h
    by_cases hp : p.1 = k
    · simp only [setKey, if_pos hp, List.map_cons, List.nodup_cons]
      exact ⟨hp ▸ h.1, h.2⟩
    · simp only [setKey, if_neg hp, List.map_cons, List.nodup_cons]
      refine ⟨?_, ih h.2⟩
      intro hmem
      rcases mem_setKey_keys k p.1 v rest hmem with hin | heq
      · exact h.1 hin
      · exact hp heq

theorem handle_some (st : PubWsState) (e : BookEvent) (cb : Nat)
    (hcb : getKey (eventPid e) st.orderBookCallbacks = some cb) :
    handleOrderBookEvent st e =
      ({ st with orderBooks := setKey (eventPid e) (bookAfter st e) st.orderBooks },
        some (cb, bookAfter st e)) := by
  unfold handleOrderBookEvent
  rw [hcb]

theorem goodBook_bookAfter_snapshot (st : PubWsState) (pid : String)
    (bs ask_levels : List SnapshotLevel)
    (hb : (bs.map SnapshotLevel.price).Nodup)
    (ha : (ask_levels.map SnapshotLevel.price).Nodup) :
    goodBook (bookAfter st (BookEvent.snapshot pid bs ask_levels)) := by
  unfold bookAfter
  apply goodBook_postProcess
  · unfold snapBook uniquePrices
    simpa [List.map_map, Function.comp] using hb
  · unfold snapBook uniquePrices
    simpa [List.map_map, Function.comp] using ha

theorem goodBook_bookAfter_delta (st : PubWsState) (pid : String)
    (p q : Int) (sd : String) (ob : OrderBook)
    (hob : getKey pid st.orderBooks = some ob)
    (hg : goodBook ob) :
    goodBook (bookAfter st (BookEvent.delta pid p q sd)) := by
  unfold bookAfter
  have hpid : eventPid (BookEvent.delta pid p q sd) = pid := rfl
  rw [hpid, hob]
  obtain ⟨hu1, hu2⟩ := uniquePrices_deltaBook ob p q sd hg.2.2.1 hg.2.2.2.1
  exact goodBook_postProcess _ hu1 hu2

theorem handle_callbacks_const (st : PubWsState) (e : BookEvent) :
    (handleOrderBookEvent st e).1.orderBookCallbacks = st.orderBookCallbacks := by
  unfold handleOrderBookEvent
  cases hcb : getKey (eventPid e) st.orderBookCallbacks with
  | none => rfl
  | some cb => rfl

theorem deltas_preserve (pid : String) (cb : Nat) :
    ∀ (ds : List (Int × Int × String)) (st : PubWsState),
      getKey pid st.orderBookCallbacks = some cb →
      (∃ ob, getKey pid st.orderBooks = some ob ∧ goodBook ob) →
      ∃ ob,
        getKey pid (applyBookEvents st
            (ds.map (fun d => BookEvent.delta pid d.1 d.2.1 d.2.2))).orderBooks = some ob ∧
        goodBook ob := by
  intro ds
  induction ds with
  | nil =>
    intro st _ hob
    simpa [applyBookEvents] using hob
  | cons d rest ih =>
    intro st hcb hob
    obtain ⟨ob, hob1, hg⟩ := hob
    have hstep := handle_some st (BookEvent.delta pid d.1 d.2.1 d.2.2) cb hcb
    have hunf :
        applyBookEvents st
            ((d :: rest).map (fun d => BookEvent.delta pid d.1 d.2.1 d.2.2)) =
          applyBookEvents (handleOrderBookEvent st (BookEvent.delta pid d.1 d.2.1 d.2.2)).1
            (rest.map (fun d => BookEvent.delta pid d.1 d.2.1 d.2.2)) := rfl
    rw [hunf]
    apply ih
    · rw [handle_callbacks_const]
      exact hcb
    · refine ⟨bookAfter st (BookEvent.delta pid d.1 d.2.1 d.2.2), ?_, ?_⟩
      · rw [hstep]
        exact getKey_setKey_self pid _ st.orderBooks
      · exact goodBook_bookAfter_delta st pid d.1 d.2.1 d.2.2 ob hob1 hg

/-! ## Claim theorems -/

/-- C1.  Applying a `book_snapshot` event (with at most one level per price
on each side, as the spec stipulates for valid snapshots) followed by any
sequence of `book` delta events for a product id with a registered callback
leaves a stored order book each side of which is strictly sorted by price
(bids descending, asks ascending), contains at most one entry per price,
and carries `total` at index `i` equal to the sum of the amounts of entries
`0..i`. -/
theorem c1_book_convergence (st : PubWsState) (pid : String) (cb : Nat)
    (snapBids snapAsks : List SnapshotLevel) (deltas : List (Int × Int × String))
    (hcb : getKey pid st.orderBookCallbacks = some cb)
    (hb : (snapBids.map SnapshotLevel.price).Nodup)
    (ha : (snapAsks.map SnapshotLevel.price).Nodup) :
    ∃ ob,
      getKey pid (applyBookEvents st
          (BookEvent.snapshot pid snapBids snapAsks ::
            deltas.map (fun d => BookEvent.delta pid d.1 d.2.1 d.2.2))).orderBooks =
        some ob ∧
      goodBook ob := by
  have hstep := handle_some st (BookEvent.snapshot pid snapBids snapAsks) cb hcb
  have hunf :
      applyBookEvents st
          (BookEvent.snapshot pid snapBids snapAsks ::
            deltas.map (fun d => BookEvent.delta pid d.1 d.2.1 d.2.2)) =
        applyBookEvents (handleOrderBookEvent st (BookEvent.snapshot pid snapBids snapAsks)).1
          (deltas.map (fun d => BookEvent.delta pid d.1 d.2.1 d.2.2)) := rfl
  rw [hunf]
  apply deltas_preserve pid cb
  · rw [handle_callbacks_const]
    exact hcb
  · refine ⟨bookAfter st (BookEvent.snapshot pid snapBids snapAsks), ?_, ?_⟩
    · rw [hstep]
      exact getKey_setKey_self pid _ st.orderBooks
    · exact goodBook_bookAfter_snapshot st pid snapBids snapAsks hb ha

/-- Witness for C1 at the spec's own scenario: snapshot
`bids = [(100, 2)]`, `asks = [(101, 3)]` followed by the delta
`(100, 0, buy)` on a session with a callback registered for `P`. -/
theorem c1_book_convergence_witness :
    getKey "P" c1WitnessState.orderBookCallbacks = some 0 ∧
    (([⟨100, 2⟩] : List SnapshotLevel).map SnapshotLevel.price).Nodup ∧
    (([⟨101, 3⟩] : List SnapshotLevel).map SnapshotLevel.price).Nodup ∧
    (∃ ob,
      getKey "P" (applyBookEvents c1WitnessState
          (BookEvent.snapshot "P" [⟨100, 2⟩] [⟨101, 3⟩] ::
            ([((100 : Int), (0 : Int), "buy")]).map
              (fun d => BookEvent.delta "P" d.1 d.2.1 d.2.2))).orderBooks =
        some ob ∧
      goodBook ob) :=
  ⟨rfl, by decide, by decide,
    c1_book_convergence c1WitnessState "P" 0 [⟨100, 2⟩] [⟨101, 3⟩]
      [((100 : Int), (0 : Int), "buy")] rfl (by decide) (by decide)⟩

/-- C2.  The claim "a delta with `amount == 0` for a price not present is a
no-op" FAILS on the code: evaluated on a session whose stored book for `P`
is empty on both sides, the delta `(price 100, qty 0, buy)` falls through
`findIndex = -1` into the push branch, so the bid side gains the spurious
entry `(price 100, amount 0, total 0)` and the book is no longer equal to
its previous state. -/
theorem c2_zero_qty_insert :
    (handleOrderBookEvent c2State (BookEvent.delta "P" 100 0 "buy")).1.orderBooks =
      [("P", ⟨[⟨100, 0, 0⟩], []⟩)] ∧
    (handleOrderBookEvent c2State (BookEvent.delta "P" 100 0 "buy")).1.orderBooks ≠
      c2State.orderBooks := by decide

/-- C4.  The claim "the next open after a forced close re-sends a subscribe
for every topic with a listener" FAILS on the code: starting from a closed
session that still holds the `book` topic `PF_X` and its registered
callback, `connectAndSubscribe` resets `topics.book` to `[]`, so the
`onOpen → subscribe()` replay sends no `book` subscribe naming `PF_X`
although the callback is still registered. -/
theorem c4_reconnect_drops_book_topics :
    countBookSubscribes "PF_X" (onOpen (connectAndSubscribe c4State)).sent = 0 ∧
    getKey "PF_X" c4State.orderBookCallbacks = some 5 := by decide

/-- C5 counterexample.  Two requests signed within the same `Date.now()`
millisecond receive the same nonce `(Date.now() * 1000)`, so the issued
nonce sequence is not strictly increasing. -/
theorem c5_nonce_counterexample :
    ¬ (nonceSequence [1700000000000, 1700000000000]).Pairwise (fun a b => a < b) := by
  decide

/-- C5 amended.  Nonces issued by the interceptor are strictly increasing
provided the successive `Date.now()` readings are themselves strictly
increasing; same-millisecond (e.g. concurrent) submissions receive equal
nonces. -/
theorem c5_nonce_monotone (clock : List Nat)
    (h : clock.Pairwise (fun a b => a < b)) :
    (nonceSequence clock).Pairwise (fun a b => a < b) := by
  unfold nonceSequence
  refine List.pairwise_map.mpr ?_
  refine h.imp ?_
  intro a b hab
  simp only [krakenNonce]
  omega

/-- Witness for C5 amended: three requests in distinct milliseconds. -/
theorem c5_nonce_monotone_witness :
    ([1, 2, 3] : List Nat).Pairwise (fun a b => a < b) ∧
    (nonceSequence [1, 2, 3]).Pairwise (fun a b => a < b) :=
  ⟨by decide, c5_nonce_monotone [1, 2, 3] (by decide)⟩

/-- C6.  The claim "unsubscribing before markets load leaves no pending
timer and the registration never happens" FAILS on the code: after the
first 100 ms retry fires (markets still not loaded), the chain's pending
timer is a NEW timer id, while the caller's unsubscribe closure still holds
the original id — invoking it clears nothing, the chain survives, and once
markets load the subscription is registered anyway (so its callback will
fire). -/
theorem c6_retry_timer_leak :
    (runRetry [RetryEvent.fire, RetryEvent.unsubscribe]).pending = some 1 ∧
    (runRetry [RetryEvent.fire, RetryEvent.unsubscribe, RetryEvent.loadMarkets,
        RetryEvent.fire]).registered = true := by decide

/-- C7 counterexample.  After the private session opens and sends its first
ping, no pong ever arriving leaves NO pending timer of any kind
(`ping()` schedules nothing; only `handlePongEvent` does), so however much
time passes there is no transition to Closed and no reconnect — not the
"exactly one Closed → Connecting per missed heartbeat" the claim states. -/
theorem c7_missed_pong_no_reconnect :
    (privRun privInit [PrivEvent.wsOpen 0]).sentPings = 1 ∧
    (privRun privInit [PrivEvent.wsOpen 0]).pingTimeoutId = none ∧
    (privRun privInit [PrivEvent.wsOpen 0]).closedCount = 0 ∧
    (privRun privInit [PrivEvent.wsOpen 0]).reconnects = 0 := by decide

/-- C7 amended.  In any run of the private session's heartbeat containing
no pong-equivalent message and no transport close — in particular after a
ping whose pong never arrives — the session performs no transition to
Closed and no reconnect: a missed heartbeat silently stops the ping loop
instead of forcing `Closed → Connecting`. -/
theorem c7_heartbeat_amended (st : PrivWsState) (es : List PrivEvent)
    (h : heartbeatSilent es = true) :
    (privRun st es).closedCount = st.closedCount ∧
    (privRun st es).reconnects = st.reconnects := by
  induction es generalizing st with
  | nil => exact ⟨rfl, rfl⟩
  | cons e rest ih =>
    unfold heartbeatSilent at h
    rw [List.all_cons, Bool.and_eq_true] at h
    have hstep : (privStep st e).closedCount = st.closedCount ∧
        (privStep st e).reconnects = st.reconnects := by
      cases e with
      | wsOpen t =>
        by_cases hd : st.disposed <;> simp [privStep, privPing, hd]
      | pongMsg t => simp at h
      | nextPingTimer t =>
        cases hp : st.pingTimeoutId with
        | none => simp [privStep, hp]
        | some i =>
          by_cases hd : st.disposed <;> simp [privStep, hp, privPing, hd]
      | transportClose => simp at h
    have hrun : privRun st (e :: rest) = privRun (privStep st e) rest := rfl
    rw [hrun]
    obtain ⟨ih1, ih2⟩ := ih (privStep st e) h.2
    exact ⟨ih1.trans hstep.1, ih2.trans hstep.2⟩

/-- Witness for C7 amended: an open followed by a (vacuous) timer event and
no pong. -/
theorem c7_heartbeat_amended_witness :
    heartbeatSilent [PrivEvent.wsOpen 0, PrivEvent.nextPingTimer 5] = true ∧
    ((privRun privInit [PrivEvent.wsOpen 0, PrivEvent.nextPingTimer 5]).closedCount =
        privInit.closedCount ∧
      (privRun privInit [PrivEvent.wsOpen 0, PrivEvent.nextPingTimer 5]).reconnects =
        privInit.reconnects) :=
  ⟨by decide, c7_heartbeat_amended privInit _ (by decide)⟩

/-- C8 counterexample.  A message that parses as JSON and carries
`feed: book_snapshot` for a product with a registered callback but has no
`asks` field makes the handler throw a `TypeError` that escapes `onMessage`
(there is no try/catch), AFTER `orderBook.bids` has already been replaced:
the stored book for `P` is partially mutated, not "unchanged or fully
updated". -/
theorem c8_partial_mutation :
    (onMessageRaw false [("P", 0)] c8Books c8Msg).2.1 = true ∧
    (onMessageRaw false [("P", 0)] c8Books c8Msg).1 ≠ c8Books := by decide

/-- C8 amended.  A message that `jsonParse` cannot parse is dropped by
`onMessage` with no error, no order-book mutation and no callback, and the
session goes on; only a PARSEABLE message whose fields do not match the
expected shape can raise and partially mutate a book. -/
theorem c8_unparseable_dropped (cbs : List (String × Nat))
    (books : List (String × JSOrderBook)) :
    onMessageRaw false cbs books RawMsg.garbage = (books, false, none) := rfl

theorem contains_append_singleton (xs : List String) (p : String) :
    (xs ++ [p]).contains p = true := by
  induction xs with
  | nil => simp
  | cons a t ih => simp [ih]

theorem countBookSubscribes_append (pid : String) (a b : List WireMsg) :
    countBookSubscribes pid (a ++ b) =
      countBookSubscribes pid a + countBookSubscribes pid b := by
  unfold countBookSubscribes
  exact List.countP_append _ _ _

theorem countBookUnsubscribes_append (pid : String) (a b : List WireMsg) :
    countBookUnsubscribes pid (a ++ b) =
      countBookUnsubscribes pid a + countBookUnsubscribes pid b := by
  unfold countBookUnsubscribes
  exact List.countP_append _ _ _

theorem countBookSubscribes_subscribeMsgs (pid : String) (st : PubWsState)
    (h : st.topicsBook.contains pid = true) :
    countBookSubscribes pid (subscribeMsgs st) = 1 := by
  have hnb : ¬ (st.topicsBook = []) := by
    intro he
    rw [he] at h
    simp at h
  have ht1 : (("ticker" : String) == "book") = false := by decide
  have hb1 : (("book" : String) == "book") = true := by decide
  unfold subscribeMsgs
  by_cases ht : st.topicsTicker = [] <;>
    simp [ht, hnb, countBookSubscribes, List.countP_cons, ht1, hb1, h] <;>
      exact List.mem_of_elem_eq_true h

theorem countBookUnsubscribes_subscribeMsgs (pid : String) (st : PubWsState) :
    countBookUnsubscribes pid (subscribeMsgs st) = 0 := by
  unfold subscribeMsgs
  by_cases ht : st.topicsTicker = [] <;>
    by_cases hbk : st.topicsBook = [] <;>
      simp [ht, hbk, countBookUnsubscribes, List.countP_cons]

theorem listen_first (st : PubWsState) (sym : String) (mkt : String × String) (c : Nat)
    (hl : st.marketsLoaded = true)
    (hf : st.markets.find? (fun m => m.2 == sym) = some mkt)
    (hc : st.topicsBook.contains mkt.1 = false)
    (hconn : st.connected = true) :
    (listenOrderBook st sym c).1 =
      { st with topicsBook := st.topicsBook ++ [mkt.1],
                sent := st.sent ++
                  subscribeMsgs { st with topicsBook := st.topicsBook ++ [mkt.1] },
                orderBookCallbacks := setKey mkt.1 c st.orderBookCallbacks } := by
  have hcm : ¬ mkt.1 ∈ st.topicsBook := by simpa using hc
  unfold listenOrderBook
  simp [hl, hf, hcm, subscribe, hconn]

theorem listen_again (st : PubWsState) (sym : String) (mkt : String × String) (c : Nat)
    (hl : st.marketsLoaded = true)
    (hf : st.markets.find? (fun m => m.2 == sym) = some mkt)
    (hc : st.topicsBook.contains mkt.1 = true) :
    (listenOrderBook st sym c).1 =
      { st with orderBookCallbacks := setKey mkt.1 c st.orderBookCallbacks } := by
  have hcm : mkt.1 ∈ st.topicsBook := List.mem_of_elem_eq_true hc
  unfold listenOrderBook
  simp [hl, hf, hcm]

theorem acquire_tail (sym : String) (mkt : String × String) :
    ∀ (n : Nat) (st : PubWsState),
      st.marketsLoaded = true →
      st.markets.find? (fun m => m.2 == sym) = some mkt →
      st.topicsBook.contains mkt.1 = true →
      (acquireN st sym n).sent = st.sent ∧
      (acquireN st sym n).topicsBook = st.topicsBook ∧
      (acquireN st sym n).connected = st.connected := by
  intro n
  induction n with
  | zero =>
    intro st _ _ _
    exact ⟨rfl, rfl, rfl⟩
  | succ k ih =>
    intro st h1 h2 h3
    have hstep := listen_again st sym mkt 0 h1 h2 h3
    have hunf : acquireN st sym (k + 1) = acquireN (listenOrderBook st sym 0).1 sym k := rfl
    rw [hunf, hstep]
    exact ih _ h1 h2 h3

theorem unsubscribeBook_fields (st : PubWsState) (pid : String)
    (hconn : st.connected = true) :
    (unsubscribeBook st pid).sent = st.sent ++ [WireMsg.unsubscribe "book" [pid]] ∧
    (unsubscribeBook st pid).connected = true := by
  unfold unsubscribeBook
  simp [hconn]

theorem countBookSubscribes_single_unsub (pid : String) :
    countBookSubscribes pid [WireMsg.unsubscribe "book" [pid]] = 0 := by
  simp [countBookSubscribes, List.countP_cons]

theorem countBookUnsubscribes_single_unsub (pid : String) :
    countBookUnsubscribes pid [WireMsg.unsubscribe "book" [pid]] = 1 := by
  have hb1 : (("book" : String) == "book") = true := by decide
  simp [countBookUnsubscribes, List.countP_cons, hb1]

theorem release_counts (pid : String) :
    ∀ (n : Nat) (st : PubWsState), st.connected = true →
      countBookSubscribes pid (releaseN st pid n).sent =
        countBookSubscribes pid st.sent ∧
      countBookUnsubscribes pid (releaseN st pid n).sent =
        countBookUnsubscribes pid st.sent + n := by
  intro n
  induction n with
  | zero =>
    intro st _
    exact ⟨rfl, rfl⟩
  | succ k ih =>
    intro st h
    obtain ⟨hs, hc⟩ := unsubscribeBook_fields st pid h
    have hunf : releaseN st pid (k + 1) = releaseN (unsubscribeBook st pid) pid k := rfl
    obtain ⟨ih1, ih2⟩ := ih (unsubscribeBook st pid) hc
    rw [hunf]
    constructor
    · rw [ih1, hs, countBookSubscribes_append, countBookSubscribes_single_unsub]
      omega
    · rw [ih2, hs, countBookUnsubscribes_append, countBookUnsubscribes_single_unsub]
      omega

/-- C3 amended.  N registrations for one symbol followed by the N
unsubscribe closures, on a connected session with markets loaded and the
topic not yet present, send exactly ONE `book` subscribe command for the
topic — but N unsubscribe commands, one per closure invocation (the source
sends an unsubscribe unconditionally whenever connected), not the single
unsubscribe the claim states. -/
theorem c3_refcount_amended (st : PubWsState) (sym : String) (mkt : String × String)
    (n : Nat)
    (hl : st.marketsLoaded = true)
    (hf : st.markets.find? (fun m => m.2 == sym) = some mkt)
    (hc : st.topicsBook.contains mkt.1 = false)
    (hconn : st.connected = true) :
    countBookSubscribes mkt.1 (releaseN (acquireN st sym (n + 1)) mkt.1 (n + 1)).sent =
      countBookSubscribes mkt.1 st.sent + 1 ∧
    countBookUnsubscribes mkt.1 (releaseN (acquireN st sym (n + 1)) mkt.1 (n + 1)).sent =
      countBookUnsubscribes mkt.1 st.sent + (n + 1) := by
  have hfirst := listen_first st sym mkt 0 hl hf hc hconn
  have h1l : (listenOrderBook st sym 0).1.marketsLoaded = true := by
    rw [hfirst]
    exact hl
  have h1f : (listenOrderBook st sym 0).1.markets.find? (fun m => m.2 == sym) = some mkt := by
    rw [hfirst]
    exact hf
  have h1c : (listenOrderBook st sym 0).1.topicsBook.contains mkt.1 = true := by
    rw [hfirst]
    exact contains_append_singleton st.topicsBook mkt.1
  have h1conn : (listenOrderBook st sym 0).1.connected = true := by
    rw [hfirst]
    exact hconn
  have h1sent :
      (listenOrderBook st sym 0).1.sent =
        st.sent ++ subscribeMsgs { st with topicsBook := st.topicsBook ++ [mkt.1] } := by
    rw [hfirst]
  have hacq : acquireN st sym (n + 1) = acquireN (listenOrderBook st sym 0).1 sym n := rfl
  have htail := acquire_tail sym mkt n (listenOrderBook st sym 0).1 h1l h1f h1c
  have hat : (acquireN (listenOrderBook st sym 0).1 sym n).connected = true :=
    htail.2.2.trans h1conn
  obtain ⟨hr1, hr2⟩ := release_counts mkt.1 (n + 1) (acquireN (listenOrderBook st sym 0).1 sym n) hat
  have hcontains :
      ({ st with topicsBook := st.topicsBook ++ [mkt.1] } : PubWsState).topicsBook.contains mkt.1 = true :=
    contains_append_singleton st.topicsBook mkt.1
  rw [hacq, hr1, hr2, htail.1, h1sent, countBookSubscribes_append,
    countBookUnsubscribes_append,
    countBookSubscribes_subscribeMsgs mkt.1 _ hcontains,
    countBookUnsubscribes_subscribeMsgs]
  omega

/-- C3 counterexample.  Two `listenOrderBook` calls for symbol `X` followed
by two invocations of the returned unsubscribe closures on a connected
session produce one `book` subscribe for `PF_X` but TWO unsubscribes —
refuting "exactly one unsubscribe command regardless of interleaving". -/
theorem c3_refcount_counterexample :
    countBookSubscribes "PF_X" (releaseN (acquireN c3State "X" 2) "PF_X" 2).sent = 1 ∧
    countBookUnsubscribes "PF_X" (releaseN (acquireN c3State "X" 2) "PF_X" 2).sent = 2 := by
  decide

/-- Witness for C3 amended at `N = 2` on the concrete connected session. -/
theorem c3_refcount_amended_witness :
    c3State.marketsLoaded = true ∧
    c3State.markets.find? (fun m => m.2 == "X") = some ("PF_X", "X") ∧
    c3State.topicsBook.contains "PF_X" = false ∧
    c3State.connected = true ∧
    (countBookSubscribes "PF_X" (releaseN (acquireN c3State "X" (1 + 1)) "PF_X" (1 + 1)).sent =
        countBookSubscribes "PF_X" c3State.sent + 1 ∧
      countBookUnsubscribes "PF_X" (releaseN (acquireN c3State "X" (1 + 1)) "PF_X" (1 + 1)).sent =
        countBookUnsubscribes "PF_X" c3State.sent + (1 + 1)) :=
  ⟨rfl, by decide, rfl, rfl,
    c3_refcount_amended c3State "X" ("PF_X", "X") 1 rfl (by decide) rfl rfl⟩

theorem listen_proj (st : PubWsState) (sym : String) (mkt : String × String) (c : Nat)
    (hl : st.marketsLoaded = true)
    (hf : st.markets.find? (fun m => m.2 == sym) = some mkt) :
    (listenOrderBook st sym c).1.orderBookCallbacks =
      setKey mkt.1 c st.orderBookCallbacks ∧
    (listenOrderBook st sym c).1.marketsLoaded = true ∧
    (listenOrderBook st sym c).1.markets = st.markets ∧
    (listenOrderBook st sym c).1.topicsBook.contains mkt.1 = true := by
  unfold listenOrderBook
  by_cases hcont : mkt.1 ∈ st.topicsBook
  · simp [hl, hf, hcont]
  · by_cases hcn : st.connected = true <;>
      simp [hl, hf, hcont, hcn, subscribe]

/-- C9.  A second `listenOrderBook` call for the same symbol (markets
loaded) overwrites the stored callback for the product id — the map keeps
at most one binding per product id — and sends no additional wire command,
so only the most recently registered callback is the one dispatch will
invoke. -/
theorem c9_callback_overwrite (st : PubWsState) (sym : String) (mkt : String × String)
    (c1 c2 : Nat)
    (hl : st.marketsLoaded = true)
    (hf : st.markets.find? (fun m => m.2 == sym) = some mkt)
    (hnd : (st.orderBookCallbacks.map Prod.fst).Nodup) :
    getKey mkt.1
        ((listenOrderBook (listenOrderBook st sym c1).1 sym c2).1).orderBookCallbacks =
      some c2 ∧
    ((listenOrderBook (listenOrderBook st sym c1).1 sym c2).1).sent =
      ((listenOrderBook st sym c1).1).sent ∧
    (((listenOrderBook (listenOrderBook st sym c1).1 sym c2).1).orderBookCallbacks.map
        Prod.fst).Nodup := by
  obtain ⟨p1, p2, p3, p4⟩ := listen_proj st sym mkt c1 hl hf
  have hf1 : (listenOrderBook st sym c1).1.markets.find? (fun m => m.2 == sym) = some mkt := by
    rw [p3]
    exact hf
  have hagain := listen_again (listenOrderBook st sym c1).1 sym mkt c2 p2 hf1 p4
  refine ⟨?_, ?_, ?_⟩
  · rw [hagain]
    exact getKey_setKey_self mkt.1 c2 _
  · rw [hagain]
  · rw [hagain]
    have h1 : ((listenOrderBook st sym c1).1.orderBookCallbacks.map Prod.fst).Nodup := by
      rw [p1]
      exact setKey_keys_nodup mkt.1 c1 st.orderBookCallbacks hnd
    exact setKey_keys_nodup mkt.1 c2 _ h1

/-- Witness for C9 on the concrete session, callbacks 1 then 2. -/
theorem c9_callback_overwrite_witness :
    c3State.marketsLoaded = true ∧
    c3State.markets.find? (fun m => m.2 == "X") = some ("PF_X", "X") ∧
    (c3State.orderBookCallbacks.map Prod.fst).Nodup ∧
    (getKey "PF_X"
          ((listenOrderBook (listenOrderBook c3State "X" 1).1 "X" 2).1).orderBookCallbacks =
        some 2 ∧
      ((listenOrderBook (listenOrderBook c3State "X" 1).1 "X" 2).1).sent =
        ((listenOrderBook c3State "X" 1).1).sent ∧
      (((listenOrderBook (listenOrderBook c3State "X" 1).1 "X" 2).1).orderBookCallbacks.map
          Prod.fst).Nodup) :=
  ⟨rfl, by decide, by decide,
    c9_callback_overwrite c3State "X" ("PF_X", "X") 1 2 rfl (by decide) (by decide)⟩

/-- C10.  An order-book event whose product id has no registered callback
makes `handleOrderBookEvent` return immediately: the whole state (in
particular the order-book map) is unchanged and no callback is invoked. -/
theorem c10_no_callback_no_effect (st : PubWsState) (e : BookEvent)
    (h : getKey (eventPid e) st.orderBookCallbacks = none) :
    handleOrderBookEvent st e = (st, none) := by
  unfold handleOrderBookEvent
  rw [h]

/-- Witness for C10: a snapshot for `P` on a session with no callbacks. -/
theorem c10_no_callback_no_effect_witness :
    getKey (eventPid (BookEvent.snapshot "P" [] [])) c3State.orderBookCallbacks = none ∧
    handleOrderBookEvent c3State (BookEvent.snapshot "P" [] []) = (c3State, none) :=
  ⟨rfl, c10_no_callback_no_effect c3State (BookEvent.snapshot "P" [] []) rfl⟩
